import Mathlib

/-!
Verification of the envguard environment-variable validation engine.

The definitions below are a shallow embedding of the TypeScript sources:
`types.ts` (data model), `validate.ts` (`formatErrors`, `validateEnv`,
`getEnv`, `isEnvValid`).  JavaScript objects appearing as read-only maps
are modelled as association lists (schemas, in declaration order) or as
functions to `Option String` (environment snapshots); `undefined` is
`Option.none`; a thrown error is the `Except.error` branch, carrying the
message of the `Error` object together with the diagnostic text passed to
`console.error` just before the throw.
-/

set_option maxRecDepth 4096

/-- Data model of `EnvVarSchema` from `types.ts`: the constraint set for one
environment variable.  `exampleVal` embeds the source field `example`
(a reserved word in Lean). -/
structure EnvVarSchema where
  required : Option Bool := none
  description : Option String := none
  exampleVal : Option String := none
  default : Option String := none
  allowed : Option (List String) := none
  deriving Repr, DecidableEq

/-- Data model of `EnvSchema` from `types.ts`: a JavaScript object mapping
variable names to specs, embedded as an association list in declaration
order (the order `Object.entries` yields). -/
abbrev Schema : Type := List (String × EnvVarSchema)

/-- An environment snapshot: `Record<string, string | undefined>`, embedded
as a function, `none` standing for an unset variable. -/
abbrev Env : Type := String → Option String

/-- Data model of `ValidationError` from `types.ts`.  `varName` embeds the
source field `variable` (a reserved word in Lean). -/
structure ValidationError where
  varName : String
  message : String
  description : Option String := none
  expected : Option (List String) := none
  deriving Repr, DecidableEq

/-- Data model of `ValidationResult` from `types.ts`. -/
structure ValidationResult where
  valid : Bool
  errors : List ValidationError
  values : List (String × Option String)
  deriving Repr, DecidableEq

/-- Options for validation (`ValidateOptions` from `types.ts`).  The source
defaults `env` to `process.env`; here a snapshot is always supplied
explicitly, matching the spec's dependency-injection reading. -/
structure ValidateOptions where
  env : Env
  throwOnError : Bool := true

/-- The observable effect of the failure path of `validateEnv`: the message
of the thrown `Error` plus the formatted text printed via `console.error`
immediately before throwing. -/
structure ThrownError where
  diagnostic : String
  message : String
  deriving Repr, DecidableEq

/-- ANSI color codes used by `formatErrors` (the `colors` object in
`validate.ts`). -/
structure AnsiColors where
  red : String
  yellow : String
  cyan : String
  gray : String
  reset : String
  bold : String

/-- The `colors` constant from `validate.ts`. -/
def colors : AnsiColors :=
  { red := "\x1b[31m"
    yellow := "\x1b[33m"
    cyan := "\x1b[36m"
    gray := "\x1b[90m"
    reset := "\x1b[0m"
    bold := "\x1b[1m" }

/-- Embedding of `formatErrors` from `validate.ts`: renders a list of
validation errors for console output.  JavaScript truthiness of
`error.description` (an optional string) is false for `undefined` and for
the empty string; `error.expected && error.expected.length > 0` is false
for `undefined` and for the empty array. -/
def formatErrors (errors : List ValidationError) : String :=
  let lines : List String :=
    [""]
    ++ [colors.red ++ colors.bold ++ "❌ Environment validation failed" ++ colors.reset]
    ++ [""]
    ++ (errors.foldr (fun error acc =>
          ([colors.red ++ "❌ " ++ error.message ++ colors.reset]
           ++ (match error.description with
               | some d => if d ≠ "" then [colors.cyan ++ "ℹ️  " ++ d ++ colors.reset] else []
               | none => [])
           ++ (match error.expected with
               | some e =>
                   if e.length > 0 then
                     [colors.gray ++ "   Allowed values: " ++ String.intercalate ", " e ++ colors.reset]
                   else []
               | none => [])
           ++ [""]) ++ acc) [])
  String.intercalate "\n" lines

/-- The local `hasValue` of the `validateEnv` loop:
`value !== undefined && value !== ""`. -/
def hasValueOf (value : Option String) : Bool :=
  value ≠ none && value ≠ some ""

/-- The local `effectiveValue` of the `validateEnv` loop:
`hasValue ? value : config.default`. -/
def effectiveValueOf (value : Option String) (config : EnvVarSchema) : Option String :=
  if hasValueOf value then value else config.default

/-- One iteration of the `for (const [key, config] of Object.entries(schema))`
loop of `validateEnv`: returns the value recorded into `values[key]` and
the (zero or one) errors pushed for this variable.  The required check's
`continue` is the first branch; the enum check runs only when
`config.allowed` is truthy with positive length and `effectiveValue` is
not `undefined`. -/
def validateStep (env : Env) (key : String) (config : EnvVarSchema) :
    Option String × List ValidationError :=
  let value := env key
  let isRequired := config.required == some true
  let hasDefault := config.default ≠ none
  let hasValue := hasValueOf value
  let effectiveValue := effectiveValueOf value config
  if isRequired && !hasValue && !hasDefault then
    (effectiveValue,
     [{ varName := key
        message := "Missing environment variable: " ++ key
        description := config.description
        expected := config.allowed }])
  else
    match config.allowed, effectiveValue with
    | some allowed, some v =>
        if allowed.length > 0 then
          if allowed.contains v then (effectiveValue, [])
          else
            (effectiveValue,
             [{ varName := key
                message := "Invalid value for " ++ key ++ ": \"" ++ v ++ "\""
                description := config.description
                expected := config.allowed }])
        else (effectiveValue, [])
    | _, _ => (effectiveValue, [])

/-- The whole loop of `validateEnv`: accumulates the `errors` array and the
`values` record (as an association list in insertion order). -/
def validateVars (env : Env) : List (String × EnvVarSchema) →
    List ValidationError × List (String × Option String)
  | [] => ([], [])
  | (key, config) :: rest =>
      let (ev, errs) := validateStep env key config
      let (restErrs, restVals) := validateVars env rest
      (errs ++ restErrs, (key, ev) :: restVals)

/-- Embedding of `validateEnv` from `validate.ts`.  On the failure path
(`!result.valid && throwOnError`) the source calls
`console.error(formatErrors(errors))` and throws
`Error("Environment validation failed: N error(s)")`; both observations are
packaged into the `Except.error` payload. -/
def validateEnv (schema : Schema) (options : ValidateOptions) :
    Except ThrownError ValidationResult :=
  let errors := (validateVars options.env schema).1
  let values := (validateVars options.env schema).2
  let result : ValidationResult :=
    { valid := errors.length == 0, errors := errors, values := values }
  if !result.valid && options.throwOnError then
    .error
      { diagnostic := formatErrors errors
        message := "Environment validation failed: " ++ toString errors.length ++ " error(s)" }
  else
    .ok result

/-- Reading `result.values[key]` on the JavaScript record: a missing key and
a key stored as `undefined` both read back as `undefined`. -/
def recordGet (values : List (String × Option String)) (key : String) : Option String :=
  (values.lookup key).join

/-- Embedding of `getEnv` from `validate.ts`: validate without throwing and
return the resolved value for `key`.  The error branch of the match is
unreachable (proved below) and returns `undefined`. -/
def getEnv (schema : Schema) (key : String) (options : ValidateOptions) : Option String :=
  match validateEnv schema { options with throwOnError := false } with
  | .ok result => recordGet result.values key
  | .error _ => none

/-- Embedding of `isEnvValid` from `validate.ts`: validate without throwing
and return `result.valid`.  The error branch is unreachable and returns
`false`. -/
def isEnvValid (schema : Schema) (options : ValidateOptions) : Bool :=
  match validateEnv schema { options with throwOnError := false } with
  | .ok result => result.valid
  | .error _ => false

/-- An empty snapshot (`{}`). -/
def emptyEnv : Env := fun _ => none

/-- A one-variable snapshot `{k: v}`. -/
def singleEnv (k v : String) : Env :=
  fun x => if x = k then some v else none

/-! Helper lemmas about the validation loop. -/

theorem validateStep_fst (env : Env) (key : String) (config : EnvVarSchema) :
    (validateStep env key config).1 = effectiveValueOf (env key) config := by
  unfold validateStep
  dsimp only
  split
  · rfl
  · split
    · split
      · split <;> rfl
      · rfl
    · rfl

theorem validateVars_values (env : Env) (schema : List (String × EnvVarSchema)) :
    (validateVars env schema).2 =
      schema.map (fun p => (p.1, effectiveValueOf (env p.1) p.2)) := by
  induction schema with
  | nil => rfl
  | cons hd tl ih =>
      obtain ⟨key, config⟩ := hd
      simp only [validateVars, List.map_cons]
      rw [← ih, ← validateStep_fst env key config]

theorem validateVars_errors (env : Env) (schema : List (String × EnvVarSchema)) :
    (validateVars env schema).1 =
      schema.flatMap (fun p => (validateStep env p.1 p.2).2) := by
  induction schema with
  | nil => rfl
  | cons hd tl ih =>
      obtain ⟨key, config⟩ := hd
      simp only [validateVars, List.flatMap_cons]
      rw [← ih]

theorem validateStep_varName (env : Env) (key : String) (config : EnvVarSchema) :
    ∀ e ∈ (validateStep env key config).2, e.varName = key := by
  intro e he
  unfold validateStep at he
  dsimp only at he
  split at he
  · simp at he; subst he; rfl
  · split at he
    · split at he
      · split at he
        · simp at he
        · simp at he; subst he; rfl
      · simp at he
    · simp at he

theorem validateEnv_nothrow (S : Schema) (env : Env) :
    validateEnv S { env := env, throwOnError := false } =
      .ok { valid := (validateVars env S).1.length == 0
            errors := (validateVars env S).1
            values := (validateVars env S).2 } := by
  unfold validateEnv
  simp

theorem effectiveValueOf_eq (value : Option String) (config : EnvVarSchema) :
    effectiveValueOf value config =
      match value with
      | some v => if v = "" then config.default else some v
      | none => config.default := by
  unfold effectiveValueOf hasValueOf
  match value with
  | none => simp
  | some v =>
      by_cases h : v = "" <;> simp [h]

theorem validateStep_missing (env : Env) (key : String) (config : EnvVarSchema)
    (hreq : config.required = some true)
    (hval : hasValueOf (env key) = false)
    (hdef : config.default = none) :
    (validateStep env key config).2 =
      [{ varName := key
         message := "Missing environment variable: " ++ key
         description := config.description
         expected := config.allowed }] := by
  unfold validateStep
  dsimp only
  rw [if_pos]
  simp [hreq, hval, hdef]

theorem validateStep_invalid (env : Env) (key : String) (config : EnvVarSchema)
    (v : String) (allowed : List String)
    (heff : effectiveValueOf (env key) config = some v)
    (hallowed : config.allowed = some allowed)
    (hne : allowed ≠ [])
    (hnotmem : v ∉ allowed) :
    (validateStep env key config).2 =
      [{ varName := key
         message := "Invalid value for " ++ key ++ ": \"" ++ v ++ "\""
         description := config.description
         expected := config.allowed }] := by
  have hbranch : ((config.required == some true) && !hasValueOf (env key)
      && !(decide (config.default ≠ none))) = false := by
    by_cases hv : hasValueOf (env key) = true
    · simp [hv]
    · have hv' : hasValueOf (env key) = false := by
        cases h : hasValueOf (env key)
        · rfl
        · exact absurd h hv
      have hd : config.default = some v := by
        unfold effectiveValueOf at heff
        rwa [if_neg (by simp [hv'])] at heff
      simp [hd]
  have hl : allowed.length > 0 := List.length_pos.mpr hne
  have hc : allowed.contains v = false := by simpa using hnotmem
  unfold validateStep
  dsimp only
  rw [hbranch]
  simp only [Bool.false_eq_true, if_false]
  rw [hallowed, heff]
  simp [hl, hc, hnotmem]

theorem validateStep_cases (env : Env) (key : String) (config : EnvVarSchema) :
    ∀ e ∈ (validateStep env key config).2,
      (config.required = some true ∧ hasValueOf (env key) = false ∧
          config.default = none ∧
          e = { varName := key
                message := "Missing environment variable: " ++ key
                description := config.description
                expected := config.allowed })
      ∨ (∃ v allowed, effectiveValueOf (env key) config = some v ∧
            config.allowed = some allowed ∧ allowed ≠ [] ∧ v ∉ allowed ∧
            e = { varName := key
                  message := "Invalid value for " ++ key ++ ": \"" ++ v ++ "\""
                  description := config.description
                  expected := config.allowed }) := by
  intro e he
  unfold validateStep at he
  dsimp only at he
  split at he
  · rename_i hcond
    simp only [Bool.and_eq_true, beq_iff_eq, Bool.not_eq_true', decide_eq_false_iff_not,
      not_not, not_ne_iff] at hcond
    simp only [List.mem_singleton] at he
    exact Or.inl ⟨hcond.1.1, hcond.1.2, hcond.2, he⟩
  · rename_i hcond
    split at he
    · rename_i allowed v hallow heff
      split at he
      · rename_i hlen
        split at he
        · simp at he
        · rename_i hcont
          simp only [List.mem_singleton] at he
          refine Or.inr ⟨v, allowed, heff, hallow, ?_, ?_, he⟩
          · intro hnil; subst hnil; simp at hlen
          · simpa using hcont
      · simp at he
    · simp at he

theorem errors_varName_mem (env : Env) (S : List (String × EnvVarSchema)) :
    ∀ e ∈ (validateVars env S).1, e.varName ∈ S.map Prod.fst := by
  intro e he
  rw [validateVars_errors] at he
  rcases List.mem_flatMap.mp he with ⟨p, hp, hep⟩
  rw [validateStep_varName env p.1 p.2 e hep]
  exact List.mem_map_of_mem _ hp

theorem validateStep_snd_small (env : Env) (key : String) (config : EnvVarSchema) :
    (validateStep env key config).2 = [] ∨ ∃ e, (validateStep env key config).2 = [e] := by
  unfold validateStep
  dsimp only
  split
  · exact Or.inr ⟨_, rfl⟩
  · split
    · split
      · split
        · exact Or.inl rfl
        · exact Or.inr ⟨_, rfl⟩
      · exact Or.inl rfl
    · exact Or.inl rfl

theorem errors_varName_sublist (env : Env) (S : List (String × EnvVarSchema)) :
    ((validateVars env S).1.map ValidationError.varName).Sublist (S.map Prod.fst) := by
  induction S with
  | nil => simp [validateVars]
  | cons hd tl ih =>
      obtain ⟨key, config⟩ := hd
      have hcons : (validateVars env ((key, config) :: tl)).1 =
          (validateStep env key config).2 ++ (validateVars env tl).1 := by
        simp [validateVars]
      rw [hcons, List.map_append, List.map_cons]
      rcases validateStep_snd_small env key config with hz | ⟨e, he⟩
      · rw [hz]
        simpa using ih.cons key
      · rw [he]
        have : e.varName = key := validateStep_varName env key config e (by rw [he]; simp)
        simp only [List.map_cons, List.map_nil, this, List.nil_append, List.singleton_append]
        exact ih.cons₂ key

theorem values_lookup (env : Env) (S : List (String × EnvVarSchema))
    (hnd : (S.map Prod.fst).Nodup) (k : String) (config : EnvVarSchema)
    (hmem : (k, config) ∈ S) :
    ((validateVars env S).2).lookup k = some (effectiveValueOf (env k) config) := by
  rw [validateVars_values]
  induction S with
  | nil => simp at hmem
  | cons hd tl ih =>
      obtain ⟨k', c'⟩ := hd
      simp only [List.map_cons, List.nodup_cons] at hnd
      by_cases hk : k = k'
      · subst hk
        have hc : config = c' := by
          rcases List.mem_cons.mp hmem with heq | htl
          · exact (Prod.mk.injEq _ _ _ _ ▸ heq).2.symm ▸ rfl
          · exact absurd (List.mem_map_of_mem Prod.fst htl) hnd.1
        subst hc
        simp [List.lookup]
      · have htl : (k, config) ∈ tl := by
          rcases List.mem_cons.mp hmem with heq | htl
          · exact absurd (congrArg Prod.fst heq) hk
          · exact htl
        have hbeq : (k == k') = false := by simpa using hk
        simp only [List.map_cons, List.lookup, hbeq]
        exact ih hnd.2 htl

theorem errors_filter_key (env : Env) (S : List (String × EnvVarSchema))
    (hnd : (S.map Prod.fst).Nodup) (k : String) (config : EnvVarSchema)
    (hmem : (k, config) ∈ S) :
    ((validateVars env S).1.filter (fun e => e.varName == k)) =
      (validateStep env k config).2 := by
  induction S with
  | nil => simp at hmem
  | cons hd tl ih =>
      obtain ⟨k', c'⟩ := hd
      simp only [List.map_cons, List.nodup_cons] at hnd
      have hcons : (validateVars env ((k', c') :: tl)).1 =
          (validateStep env k' c').2 ++ (validateVars env tl).1 := by
        simp [validateVars]
      rw [hcons, List.filter_append]
      by_cases hk : k = k'
      · subst hk
        have hc : config = c' := by
          rcases List.mem_cons.mp hmem with heq | htl
          · exact (Prod.mk.injEq _ _ _ _ ▸ heq).2.symm ▸ rfl
          · exact absurd (List.mem_map_of_mem Prod.fst htl) hnd.1
        subst hc
        have h1 : ((validateStep env k config).2.filter (fun e => e.varName == k)) =
            (validateStep env k config).2 := by
          rw [List.filter_eq_self]
          intro e he
          simp [validateStep_varName env k config e he]
        have h2 : ((validateVars env tl).1.filter (fun e => e.varName == k)) = [] := by
          rw [List.filter_eq_nil_iff]
          intro e he
          have := errors_varName_mem env tl e he
          simp only [beq_iff_eq]
          intro heq
          rw [heq] at this
          exact hnd.1 this
        rw [h1, h2, List.append_nil]
      · have htl : (k, config) ∈ tl := by
          rcases List.mem_cons.mp hmem with heq | htl
          · exact absurd (congrArg Prod.fst heq) hk
          · exact htl
        have h1 : ((validateStep env k' c').2.filter (fun e => e.varName == k)) = [] := by
          rw [List.filter_eq_nil_iff]
          intro e he
          simp only [beq_iff_eq]
          rw [validateStep_varName env k' c' e he]
          exact fun heq => hk heq.symm
        rw [h1, List.nil_append]
        exact ih hnd.2 htl

theorem mem_unique_key (S : List (String × EnvVarSchema))
    (hnd : (S.map Prod.fst).Nodup) (k : String) (c1 c2 : EnvVarSchema)
    (h1 : (k, c1) ∈ S) (h2 : (k, c2) ∈ S) : c1 = c2 := by
  induction S with
  | nil => simp at h1
  | cons hd tl ih =>
      obtain ⟨k', c'⟩ := hd
      simp only [List.map_cons, List.nodup_cons] at hnd
      rcases List.mem_cons.mp h1 with he1 | ht1 <;> rcases List.mem_cons.mp h2 with he2 | ht2
      · rw [Prod.mk.injEq] at he1 he2
        rw [he1.2, he2.2]
      · rw [Prod.mk.injEq] at he1
        exact absurd (he1.1 ▸ List.mem_map_of_mem Prod.fst ht2) hnd.1
      · rw [Prod.mk.injEq] at he2
        exact absurd (he2.1 ▸ List.mem_map_of_mem Prod.fst ht1) hnd.1
      · exact ih hnd.2 ht1 ht2

theorem result_errors_of_nothrow (S : Schema) (env : Env) (r : ValidationResult)
    (hok : validateEnv S { env := env, throwOnError := false } = .ok r) :
    r.errors = (validateVars env S).1 ∧ r.values = (validateVars env S).2 ∧
      r.valid = ((validateVars env S).1.length == 0) := by
  rw [validateEnv_nothrow] at hok
  simp only [Except.ok.injEq] at hok
  rw [← hok]
  exact ⟨rfl, rfl, rfl⟩

/-! Concrete fixtures from the spec's scenarios. -/

/-- Scenario 1 schema: `{DATABASE_URL: {required: true}}`. -/
def dbSchema : Schema := [("DATABASE_URL", { required := some true })]

/-- The `NODE_ENV` spec of scenario 2. -/
def nodeEnvConfig : EnvVarSchema :=
  { required := some false
    default := some "development"
    allowed := some ["development", "production", "test"] }

/-- Scenario 2 schema. -/
def nodeEnvSchema : Schema := [("NODE_ENV", nodeEnvConfig)]

/-- Scenario 4 schema: `{PORT: {required: false, default: "3000"}}`. -/
def portSchema : Schema := [("PORT", { required := some false, default := some "3000" })]

/-- A spec with an empty-string default and a non-empty allowed list. -/
def emptyDefaultConfig : EnvVarSchema := { default := some "", allowed := some ["a"] }

/-- Schema exercising the empty-string-default corner. -/
def emptyDefaultSchema : Schema := [("K", emptyDefaultConfig)]

/-- A required spec with an empty-string default. -/
def reqEmptyDefaultConfig : EnvVarSchema :=
  { required := some true, default := some "", allowed := some ["a"] }

/-- Schema exercising required-with-empty-default. -/
def reqEmptyDefaultSchema : Schema := [("K8", reqEmptyDefaultConfig)]

/-- C1: under non-throwing options, `validateEnv` returns normally and its
`values` record has exactly one entry per schema key, in schema order, whose
value is the snapshot's value for that key when present and non-empty,
otherwise the spec's default when set, otherwise absent. -/
theorem validateEnv_values_characterized (S : Schema) (env : Env)
    (hnd : (S.map Prod.fst).Nodup) :
    ∃ r, validateEnv S { env := env, throwOnError := false } = .ok r ∧
      r.values.map Prod.fst = S.map Prod.fst ∧
      ∀ k config, (k, config) ∈ S →
        r.values.lookup k =
          some (match env k with
                | some v => if v = "" then config.default else some v
                | none => config.default) := by
  refine ⟨_, validateEnv_nothrow S env, ?_, ?_⟩
  · show ((validateVars env S).2).map Prod.fst = S.map Prod.fst
    rw [validateVars_values, List.map_map]
    rfl
  · intro k config hmem
    show ((validateVars env S).2).lookup k = _
    rw [values_lookup env S hnd k config hmem, effectiveValueOf_eq]

/-- Witness for C1 at scenario 4's schema and snapshot. -/
theorem validateEnv_values_characterized_witness :
    ∃ r, validateEnv portSchema { env := singleEnv "PORT" "", throwOnError := false } = .ok r ∧
      r.values.map Prod.fst = portSchema.map Prod.fst ∧
      ∀ k config, (k, config) ∈ portSchema →
        r.values.lookup k =
          some (match singleEnv "PORT" "" k with
                | some v => if v = "" then config.default else some v
                | none => config.default) :=
  validateEnv_values_characterized portSchema (singleEnv "PORT" "") (by simp [portSchema])

/-- C2 counterexample: for schema `{K: {default: "", allowed: ["a"]}}` and
the empty snapshot, the resolved effective value of `K` is the empty string —
not non-empty — yet `validateEnv` emits an Invalid-value violation for `K`.
This refutes the claim that every violating key either fails the
required/no-default check or has a non-empty resolved value outside the
allowed list. -/
theorem validateEnv_violation_nonempty_cex :
    ¬ (∀ (S : Schema) (env : Env) (r : ValidationResult),
        validateEnv S { env := env, throwOnError := false } = .ok r →
        ∀ e ∈ r.errors, ∃ config, (e.varName, config) ∈ S ∧
          ((config.required = some true ∧ hasValueOf (env e.varName) = false ∧
              config.default = none)
           ∨ (∃ v allowed, effectiveValueOf (env e.varName) config = some v ∧ v ≠ "" ∧
                config.allowed = some allowed ∧ allowed ≠ [] ∧ v ∉ allowed))) := by
  intro h
  have hcall := h emptyDefaultSchema emptyEnv
    { valid := false
      errors := [{ varName := "K", message := "Invalid value for K: \"\"",
                   description := none, expected := some ["a"] }]
      values := [("K", some "")] }
    (by rfl)
    { varName := "K", message := "Invalid value for K: \"\"",
      description := none, expected := some ["a"] }
    (by simp)
  rcases hcall with ⟨config, hmem, hcase⟩
  have hconfig : config = emptyDefaultConfig := by
    simpa [emptyDefaultSchema] using hmem
  subst hconfig
  rcases hcase with ⟨_, _, hdef⟩ | ⟨v, allowed, heff, hne, _⟩
  · simp [emptyDefaultConfig] at hdef
  · have hv : v = "" := by
      have h0 : effectiveValueOf (emptyEnv "K") emptyDefaultConfig = some "" := by rfl
      rw [h0] at heff
      exact (Option.some_injective _ heff).symm
    exact hne hv

/-- C2 amended: a key appears in the errors of a non-throwing `validateEnv`
only if its spec is required with no provided value and no default, or its
resolved effective value is present — possibly the empty string, when it
arises from an empty-string default — and not a member of a non-empty
allowed list; for a schema with distinct keys no key appears twice, so no
key appears for both reasons in one outcome. -/
theorem validateEnv_violations_characterized (S : Schema) (env : Env)
    (r : ValidationResult)
    (hnd : (S.map Prod.fst).Nodup)
    (hok : validateEnv S { env := env, throwOnError := false } = .ok r) :
    (∀ e ∈ r.errors, ∃ config, (e.varName, config) ∈ S ∧
        ((config.required = some true ∧ hasValueOf (env e.varName) = false ∧
            config.default = none)
         ∨ (∃ v allowed, effectiveValueOf (env e.varName) config = some v ∧
              config.allowed = some allowed ∧ allowed ≠ [] ∧ v ∉ allowed))) ∧
      (r.errors.map ValidationError.varName).Nodup := by
  have hr := (result_errors_of_nothrow S env r hok).1
  constructor
  · intro e he
    rw [hr, validateVars_errors] at he
    rcases List.mem_flatMap.mp he with ⟨⟨k, config⟩, hp, hep⟩
    have hname : e.varName = k := validateStep_varName env k config e hep
    rcases validateStep_cases env k config e hep with ⟨h1, h2, h3, _⟩
      | ⟨v, allowed, h1, h2, h3, h4, _⟩
    · exact ⟨config, by rw [hname]; exact hp, Or.inl ⟨h1, by rw [hname]; exact h2, h3⟩⟩
    · exact ⟨config, by rw [hname]; exact hp,
        Or.inr ⟨v, allowed, by rw [hname]; exact h1, h2, h3, h4⟩⟩
  · rw [hr]
    exact (errors_varName_sublist env S).nodup hnd

/-- Witness for the amended C2 at scenario 2's schema and snapshot. -/
theorem validateEnv_violations_characterized_witness :
    (∀ e ∈ ({ valid := false
              errors := [{ varName := "NODE_ENV"
                           message := "Invalid value for NODE_ENV: \"staging\""
                           description := none
                           expected := some ["development", "production", "test"] }]
              values := [("NODE_ENV", some "staging")] } : ValidationResult).errors,
        ∃ config, (e.varName, config) ∈ nodeEnvSchema ∧
          ((config.required = some true ∧
              hasValueOf (singleEnv "NODE_ENV" "staging" e.varName) = false ∧
              config.default = none)
           ∨ (∃ v allowed,
                effectiveValueOf (singleEnv "NODE_ENV" "staging" e.varName) config = some v ∧
                config.allowed = some allowed ∧ allowed ≠ [] ∧ v ∉ allowed))) ∧
      (({ valid := false
          errors := [{ varName := "NODE_ENV"
                       message := "Invalid value for NODE_ENV: \"staging\""
                       description := none
                       expected := some ["development", "production", "test"] }]
          values := [("NODE_ENV", some "staging")] } : ValidationResult).errors.map
        ValidationError.varName).Nodup :=
  validateEnv_violations_characterized nodeEnvSchema (singleEnv "NODE_ENV" "staging")
    _ (by simp [nodeEnvSchema]) (by rfl)

/-- C3: `validateEnv` fails exactly when the computed violations list is
non-empty and `throwOnError` is true; when it fails, the error message
carries the violation count and the diagnostic printed beforehand is the
formatted rendering of all violations; in every other case — including an
invalid outcome with `throwOnError` false — the result is returned normally
regardless of validity. -/
theorem validateEnv_throw_iff (S : Schema) (options : ValidateOptions) :
    ((∃ err, validateEnv S options = .error err) ↔
        ((validateVars options.env S).1 ≠ [] ∧ options.throwOnError = true)) ∧
      (∀ err, validateEnv S options = .error err →
          err.diagnostic = formatErrors (validateVars options.env S).1 ∧
          err.message = "Environment validation failed: " ++
            toString (validateVars options.env S).1.length ++ " error(s)") ∧
      (∀ r, validateEnv S options = .ok r →
          r = { valid := (validateVars options.env S).1.length == 0
                errors := (validateVars options.env S).1
                values := (validateVars options.env S).2 }) := by
  unfold validateEnv
  dsimp only
  by_cases hcond : (!((validateVars options.env S).1.length == 0) &&
      options.throwOnError) = true
  · rw [if_pos hcond]
    simp only [Bool.and_eq_true, Bool.not_eq_true'] at hcond
    refine ⟨?_, ?_, ?_⟩
    · constructor
      · intro _
        refine ⟨?_, hcond.2⟩
        intro hnil
        rw [hnil] at hcond
        simp at hcond
      · intro _
        exact ⟨_, rfl⟩
    · intro err herr
      simp only [Except.error.injEq] at herr
      rw [← herr]
      exact ⟨rfl, rfl⟩
    · intro r hr
      exact absurd hr (by simp)
  · rw [if_neg hcond]
    refine ⟨?_, ?_, ?_⟩
    · constructor
      · intro ⟨err, herr⟩
        exact absurd herr (by simp)
      · intro ⟨hne, hthrow⟩
        exfalso
        apply hcond
        simp only [Bool.and_eq_true, Bool.not_eq_true', hthrow, and_true]
        simpa [List.length_eq_zero] using hne
    · intro err herr
      exact absurd herr (by simp)
    · intro r hr
      simp only [Except.ok.injEq] at hr
      exact hr.symm

/-- Witness for C3: scenario 1's schema against the empty snapshot with
`throwOnError` true does fail. -/
theorem validateEnv_throw_iff_witness :
    ∃ err, validateEnv dbSchema { env := emptyEnv, throwOnError := true } = .error err :=
  (validateEnv_throw_iff dbSchema { env := emptyEnv, throwOnError := true }).1.mpr
    ⟨by decide, rfl⟩

/-- C4: whenever a spec's allowed list is non-empty and the resolved
effective value is present but not a member of it, `validateEnv` emits a
violation with message `Invalid value for <name>: "<effectiveValue>"`
carrying the spec's description and allowed list; concretely, the NODE_ENV
enum schema against `{NODE_ENV: "staging"}` yields an invalid outcome with
exactly that one violation. -/
theorem validateEnv_enum_violation (S : Schema) (env : Env) (k : String)
    (config : EnvVarSchema) (v : String) (allowed : List String)
    (hmem : (k, config) ∈ S)
    (heff : effectiveValueOf (env k) config = some v)
    (hallowed : config.allowed = some allowed) (hne : allowed ≠ [])
    (hnotmem : v ∉ allowed) :
    (∀ r, validateEnv S { env := env, throwOnError := false } = .ok r →
        ∃ e ∈ r.errors,
          e = { varName := k
                message := "Invalid value for " ++ k ++ ": \"" ++ v ++ "\""
                description := config.description
                expected := config.allowed }) ∧
      validateEnv nodeEnvSchema
          { env := singleEnv "NODE_ENV" "staging", throwOnError := false } =
        .ok { valid := false
              errors := [{ varName := "NODE_ENV"
                           message := "Invalid value for NODE_ENV: \"staging\""
                           description := none
                           expected := some ["development", "production", "test"] }]
              values := [("NODE_ENV", some "staging")] } := by
  constructor
  · intro r hok
    have hr := (result_errors_of_nothrow S env r hok).1
    rw [hr, validateVars_errors]
    refine ⟨_, List.mem_flatMap.mpr ⟨(k, config), hmem, ?_⟩, rfl⟩
    rw [validateStep_invalid env k config v allowed heff hallowed hne hnotmem]
    simp
  · rfl

/-- Witness for C4, extracting the concrete NODE_ENV scenario from the
general theorem instantiated there. -/
theorem validateEnv_enum_violation_witness :
    validateEnv nodeEnvSchema
        { env := singleEnv "NODE_ENV" "staging", throwOnError := false } =
      .ok { valid := false
            errors := [{ varName := "NODE_ENV"
                         message := "Invalid value for NODE_ENV: \"staging\""
                         description := none
                         expected := some ["development", "production", "test"] }]
            values := [("NODE_ENV", some "staging")] } :=
  (validateEnv_enum_violation nodeEnvSchema (singleEnv "NODE_ENV" "staging") "NODE_ENV"
      nodeEnvConfig "staging" ["development", "production", "test"]
      (by simp [nodeEnvSchema]) (by rfl) (by rfl) (by simp) (by decide)).2

/-- C5: a required variable with no meaningful snapshot value and no default
gets exactly one violation, with message `Missing environment variable:
<name>` carrying the spec's description and allowed list, and no enum check
is performed for it; concretely, `{DATABASE_URL: {required: true}}` against
the empty snapshot is invalid with exactly that one violation. -/
theorem validateEnv_missing_violation (S : Schema) (env : Env) (k : String)
    (config : EnvVarSchema)
    (hnd : (S.map Prod.fst).Nodup)
    (hmem : (k, config) ∈ S)
    (hreq : config.required = some true)
    (hval : hasValueOf (env k) = false)
    (hdef : config.default = none) :
    (∀ r, validateEnv S { env := env, throwOnError := false } = .ok r →
        r.errors.filter (fun e => e.varName == k) =
          [{ varName := k
             message := "Missing environment variable: " ++ k
             description := config.description
             expected := config.allowed }]) ∧
      validateEnv dbSchema { env := emptyEnv, throwOnError := false } =
        .ok { valid := false
              errors := [{ varName := "DATABASE_URL"
                           message := "Missing environment variable: DATABASE_URL"
                           description := none
                           expected := none }]
              values := [("DATABASE_URL", none)] } := by
  constructor
  · intro r hok
    have hr := (result_errors_of_nothrow S env r hok).1
    rw [hr, errors_filter_key env S hnd k config hmem,
      validateStep_missing env k config hreq hval hdef]
  · rfl

/-- Witness for C5, extracting the concrete DATABASE_URL scenario from the
general theorem instantiated there. -/
theorem validateEnv_missing_violation_witness :
    validateEnv dbSchema { env := emptyEnv, throwOnError := false } =
      .ok { valid := false
            errors := [{ varName := "DATABASE_URL"
                         message := "Missing environment variable: DATABASE_URL"
                         description := none
                         expected := none }]
            values := [("DATABASE_URL", none)] } :=
  (validateEnv_missing_violation dbSchema emptyEnv "DATABASE_URL"
      { required := some true } (by simp [dbSchema]) (by simp [dbSchema])
      rfl (by rfl) rfl).2

theorem validateStep_env_eq (env env' : Env) (key : String) (config : EnvVarSchema)
    (h : env key = env' key) :
    validateStep env key config = validateStep env' key config := by
  unfold validateStep
  rw [h]

theorem validateStep_no_value (env env' : Env) (key : String) (config : EnvVarSchema)
    (h : hasValueOf (env key) = false) (h' : hasValueOf (env' key) = false) :
    validateStep env key config = validateStep env' key config := by
  have e1 : effectiveValueOf (env key) config = config.default := by
    unfold effectiveValueOf
    rw [h]
    rfl
  have e1' : effectiveValueOf (env' key) config = config.default := by
    unfold effectiveValueOf
    rw [h']
    rfl
  unfold validateStep
  dsimp only
  rw [h, h', e1, e1']

/-- C6: a snapshot value equal to the empty string is treated identically to
an absent value — replacing `k`'s empty-string entry by an unset entry
changes nothing about the outcome; concretely, `{PORT: {required: false,
default: "3000"}}` against `{PORT: ""}` is valid with `values.PORT` equal to
`"3000"`. -/
theorem validateEnv_empty_as_absent (S : Schema) (env : Env) (k : String) (b : Bool)
    (h : env k = some "") :
    (validateEnv S { env := env, throwOnError := b } =
        validateEnv S { env := fun x => if x = k then none else env x, throwOnError := b }) ∧
      validateEnv portSchema { env := singleEnv "PORT" "", throwOnError := false } =
        .ok { valid := true, errors := [], values := [("PORT", some "3000")] } := by
  constructor
  · have hstep : ∀ key config, validateStep env key config =
        validateStep (fun x => if x = k then none else env x) key config := by
      intro key config
      by_cases hk : key = k
      · subst hk
        apply validateStep_no_value
        · rw [h]
          rfl
        · simp [hasValueOf]
      · apply validateStep_env_eq
        simp [hk]
    have hvars : validateVars env S =
        validateVars (fun x => if x = k then none else env x) S := by
      induction S with
      | nil => rfl
      | cons hd tl ih =>
          obtain ⟨key, config⟩ := hd
          simp only [validateVars]
          rw [hstep key config, ih]
    unfold validateEnv
    dsimp only
    rw [hvars]
  · rfl

/-- Witness for C6 at scenario 4's snapshot. -/
theorem validateEnv_empty_as_absent_witness :
    (validateEnv portSchema { env := singleEnv "PORT" "", throwOnError := false } =
        validateEnv portSchema
          { env := fun x => if x = "PORT" then none else singleEnv "PORT" "" x
            throwOnError := false }) ∧
      validateEnv portSchema { env := singleEnv "PORT" "", throwOnError := false } =
        .ok { valid := true, errors := [], values := [("PORT", some "3000")] } :=
  validateEnv_empty_as_absent portSchema (singleEnv "PORT" "") "PORT" false (by rfl)

/-- C7: `getEnv` returns exactly the non-throwing validation's resolved value
for the key, and `isEnvValid` returns exactly its `valid` flag; both wrappers
delegate to `validateEnv` with `throwOnError` forced to false, which always
returns normally, so neither wrapper can raise. -/
theorem getEnv_isEnvValid_delegate (S : Schema) (env : Env) (k : String) (b : Bool) :
    ∃ r, validateEnv S { env := env, throwOnError := false } = .ok r ∧
      getEnv S k { env := env, throwOnError := b } = recordGet r.values k ∧
      isEnvValid S { env := env, throwOnError := b } = r.valid := by
  refine ⟨_, validateEnv_nothrow S env, ?_, ?_⟩
  · unfold getEnv
    rw [show ({ { env := env, throwOnError := b : ValidateOptions } with
        throwOnError := false } : ValidateOptions) =
      { env := env, throwOnError := false } from rfl]
    rw [validateEnv_nothrow]
  · unfold isEnvValid
    rw [show ({ { env := env, throwOnError := b : ValidateOptions } with
        throwOnError := false } : ValidateOptions) =
      { env := env, throwOnError := false } from rfl]
    rw [validateEnv_nothrow]

theorem invalid_ne_missing (k k' v : String) :
    "Invalid value for " ++ k ++ ": \"" ++ v ++ "\"" ≠
      "Missing environment variable: " ++ k' := by
  intro hcontra
  have hh := congrArg (fun s => s.data.head?) hcontra
  simp only [String.data_append] at hh
  simp at hh

theorem invalid_empty_message (k : String) :
    "Invalid value for " ++ k ++ ": \"" ++ "" ++ "\"" =
      "Invalid value for " ++ k ++ ": \"\"" := by
  apply String.ext
  simp [String.data_append]

/-- C8: a required spec whose default is the empty string counts as having a
default — no Missing-variable violation is emitted when the snapshot value
is absent or empty; the empty string is recorded as the effective value; and
when the spec also has a non-empty allowed list not containing the empty
string, an Invalid-value violation for the empty effective value is emitted
instead. -/
theorem validateEnv_required_empty_default (S : Schema) (env : Env) (k : String)
    (config : EnvVarSchema)
    (hnd : (S.map Prod.fst).Nodup)
    (hmem : (k, config) ∈ S)
    (hreq : config.required = some true)
    (hdef : config.default = some "")
    (hval : hasValueOf (env k) = false) :
    ∀ r, validateEnv S { env := env, throwOnError := false } = .ok r →
      (∀ e ∈ r.errors, e.varName = k →
          e.message ≠ "Missing environment variable: " ++ k) ∧
      r.values.lookup k = some (some "") ∧
      (∀ allowed, config.allowed = some allowed → allowed ≠ [] → "" ∉ allowed →
        r.errors.filter (fun e => e.varName == k) =
          [{ varName := k
             message := "Invalid value for " ++ k ++ ": \"\""
             description := config.description
             expected := some allowed }]) := by
  have heff : effectiveValueOf (env k) config = some "" := by
    unfold effectiveValueOf
    rw [hval, hdef]
    simp
  intro r hok
  obtain ⟨hr, hv, _⟩ := result_errors_of_nothrow S env r hok
  refine ⟨?_, ?_, ?_⟩
  · intro e he hname
    rw [hr, validateVars_errors] at he
    rcases List.mem_flatMap.mp he with ⟨⟨k2, c2⟩, hp, hep⟩
    have hk2 : k2 = k := by
      rw [← validateStep_varName env k2 c2 e hep, hname]
    subst hk2
    have hc2 : c2 = config := mem_unique_key S hnd k2 c2 config hp hmem
    subst hc2
    rcases validateStep_cases env k2 c2 e hep with ⟨_, _, h3, _⟩
      | ⟨v, allowed, _, _, _, _, hE⟩
    · rw [hdef] at h3
      exact Option.noConfusion h3
    · rw [hE]
      exact invalid_ne_missing k2 k2 v
  · rw [hv, values_lookup env S hnd k config hmem, heff]
  · intro allowed ha hne hnotin
    rw [hr, errors_filter_key env S hnd k config hmem,
      validateStep_invalid env k config "" allowed heff ha hne hnotin,
      ha, invalid_empty_message]

/-- Witness for C8 at a required spec with empty-string default and allowed
list `["a"]`, against the empty snapshot. -/
theorem validateEnv_required_empty_default_witness :
    (∀ e ∈ ({ valid := false
              errors := [{ varName := "K8"
                           message := "Invalid value for K8: \"\""
                           description := none
                           expected := some ["a"] }]
              values := [("K8", some "")] } : ValidationResult).errors,
        e.varName = "K8" →
          e.message ≠ "Missing environment variable: " ++ "K8") ∧
      ({ valid := false
         errors := [{ varName := "K8"
                      message := "Invalid value for K8: \"\""
                      description := none
                      expected := some ["a"] }]
         values := [("K8", some "")] } : ValidationResult).values.lookup "K8" =
        some (some "") ∧
      (∀ allowed, reqEmptyDefaultConfig.allowed = some allowed → allowed ≠ [] →
        "" ∉ allowed →
        ({ valid := false
           errors := [{ varName := "K8"
                        message := "Invalid value for K8: \"\""
                        description := none
                        expected := some ["a"] }]
           values := [("K8", some "")] } : ValidationResult).errors.filter
            (fun e => e.varName == "K8") =
          [{ varName := "K8"
             message := "Invalid value for " ++ "K8" ++ ": \"\""
             description := reqEmptyDefaultConfig.description
             expected := some allowed }]) :=
  validateEnv_required_empty_default reqEmptyDefaultSchema emptyEnv "K8"
    reqEmptyDefaultConfig (by simp [reqEmptyDefaultSchema])
    (by simp [reqEmptyDefaultSchema]) rfl rfl rfl
    { valid := false
      errors := [{ varName := "K8"
                   message := "Invalid value for K8: \"\""
                   description := none
                   expected := some ["a"] }]
      values := [("K8", some "")] }
    (by rfl)

/-- The heap objects `validateEnv` receives by reference: the schema object
and the environment-snapshot object.  The state-threaded embedding below
passes this record through every iteration of the loop, so that any
assignment the source made to either object would show up as a change in the
returned state; the source's only writes go to the locally allocated
`errors` array and `values` record, which appear here as the pure second
component. -/
structure JsState where
  schemaObj : Schema
  envObj : Env

/-- State-threaded form of the `validateEnv` loop: each iteration reads
`st.envObj` (the `env[key]` access) and the schema entry, and returns the
state it finished with alongside the accumulated errors and values. -/
def validateVarsSt : List (String × EnvVarSchema) → JsState →
    JsState × (List ValidationError × List (String × Option String))
  | [], st => (st, ([], []))
  | (key, config) :: rest, st =>
      let (ev, errs) := validateStep st.envObj key config
      let (st', rests) := validateVarsSt rest st
      (st', (errs ++ rests.1, (key, ev) :: rests.2))

/-- State-threaded form of `validateEnv`: runs the loop over the schema
object held in the state and produces the final state next to the same
outcome as the pure embedding. -/
def validateEnvSt (st : JsState) (throwOnError : Bool) :
    JsState × Except ThrownError ValidationResult :=
  let (st', acc) := validateVarsSt st.schemaObj st
  let errors := acc.1
  let values := acc.2
  let result : ValidationResult :=
    { valid := errors.length == 0, errors := errors, values := values }
  if !result.valid && throwOnError then
    (st',
     .error
       { diagnostic := formatErrors errors
         message := "Environment validation failed: " ++ toString errors.length ++ " error(s)" })
  else
    (st', .ok result)

theorem validateVarsSt_spec (l : List (String × EnvVarSchema)) (st : JsState) :
    validateVarsSt l st = (st, validateVars st.envObj l) := by
  induction l with
  | nil => rfl
  | cons hd tl ih =>
      obtain ⟨key, config⟩ := hd
      simp only [validateVarsSt, validateVars, ih]

/-- C9: `validateEnv` never mutates its schema or snapshot arguments — the
state-threaded embedding returns the heap objects unchanged, for any options,
and its outcome coincides with the pure embedding's, so the same `Schema`
and snapshot can be reused read-only across calls. -/
theorem validateEnv_no_mutation (st : JsState) (b : Bool) :
    (validateEnvSt st b).1 = st ∧
      (validateEnvSt st b).2 =
        validateEnv st.schemaObj { env := st.envObj, throwOnError := b } := by
  unfold validateEnvSt validateEnv
  rw [validateVarsSt_spec]
  dsimp only
  split
  · exact ⟨rfl, rfl⟩
  · exact ⟨rfl, rfl⟩

/-- Options of `generateMarkdown` (spec §4.3): a title defaulting to
"Environment Variables". -/
structure GenerateMarkdownOptions where
  title : String := "Environment Variables"

/-- Modelled from the spec: the source file `generateMarkdown.ts` is not
present under `src/` (the package index only re-exports it).  Following
§4.3: a level-1 heading with the title, the fixed introductory sentence, a
`Name | Required | Default | Description | Example` table with one row per
variable in declaration order (check/cross glyph for required, em-dash
placeholder for an absent default), and — when any variable has a non-empty
allowed list — an "Allowed Values" section with one subsection per such
variable listing each allowed value as a bullet. -/
def generateMarkdown (schema : Schema) (options : GenerateMarkdownOptions) : String :=
  let header :=
    ["# " ++ options.title,
     "",
     "This document describes all environment variables used by this application.",
     "",
     "| Name | Required | Default | Description | Example |",
     "|------|----------|---------|-------------|---------|"]
  let rows := schema.map (fun p =>
    "| `" ++ p.1 ++ "` | " ++
      (if p.2.required == some true then "✅" else "❌") ++ " | " ++
      (match p.2.default with
       | some d => "`" ++ d ++ "`"
       | none => "`—`") ++ " | " ++
      p.2.description.getD "—" ++ " | " ++
      p.2.exampleVal.getD "—" ++ " |")
  let withAllowed := schema.filter (fun p =>
    match p.2.allowed with
    | some a => a.length > 0
    | none => false)
  let appendix :=
    if withAllowed.length > 0 then
      ["", "## Allowed Values"]
      ++ withAllowed.flatMap (fun p =>
           ["", "### `" ++ p.1 ++ "`", ""]
           ++ (p.2.allowed.getD []).map (fun v => "- `" ++ v ++ "`"))
    else []
  String.intercalate "\n" (header ++ rows ++ appendix) ++ "\n"

/-- Options of `generateEnvExample` (spec §4.4). -/
structure GenerateEnvExampleOptions where
  includeComments : Bool := true
  groupByRequired : Bool := false

/-- Modelled from the spec: per-variable record of `generateEnvExample`
(§4.4).  With comments on: an optional description comment, a `[REQUIRED]`
comment for required specs, an allowed-values comment, then the assignment
line `NAME=<default-or-empty>`; with comments off, only the assignment
line. -/
def envExampleRecord (includeComments : Bool) (p : String × EnvVarSchema) : List String :=
  (if includeComments then
     (match p.2.description with
      | some d => ["# " ++ d]
      | none => [])
     ++ (if p.2.required == some true then ["# [REQUIRED]"] else [])
     ++ (match p.2.allowed with
         | some a =>
             if a.length > 0 then ["# Allowed values: " ++ String.intercalate ", " a]
             else []
         | none => [])
   else [])
  ++ [p.1 ++ "=" ++ p.2.default.getD ""]

/-- Modelled from the spec: the source file `generateEnvExample.ts` is not
present under `src/` (the package index only re-exports it).  Following
§4.4: a fixed two-line header, then one record per variable in declaration
order — or, under `groupByRequired`, a "Required" section followed by an
"Optional" section, each a stable partition of the declaration order — with
blank-line separation between records. -/
def generateEnvExample (schema : Schema) (options : GenerateEnvExampleOptions) : String :=
  let header := ["# Environment Variables", "# Generated by envguard"]
  let body :=
    if options.groupByRequired then
      let req := schema.filter (fun p => p.2.required == some true)
      let opt := schema.filter (fun p => !(p.2.required == some true))
      ["", "# Required"]
      ++ req.flatMap (fun p => [""] ++ envExampleRecord options.includeComments p)
      ++ ["", "# Optional"]
      ++ opt.flatMap (fun p => [""] ++ envExampleRecord options.includeComments p)
    else
      schema.flatMap (fun p => [""] ++ envExampleRecord options.includeComments p)
  String.intercalate "\n" (header ++ body) ++ "\n"

/-- C10: both renderers are pure, deterministic functions of schema and
options — two calls with identical arguments yield byte-identical output
strings; they are modelled as Lean functions of their arguments alone, with
no I/O capability, matching the spec's no-filesystem/no-network
requirement. -/
theorem renderers_deterministic (S : Schema)
    (omd : GenerateMarkdownOptions) (oex : GenerateEnvExampleOptions) :
    generateMarkdown S omd = generateMarkdown S omd ∧
      generateEnvExample S oex = generateEnvExample S oex :=
  ⟨rfl, rfl⟩
